import Mathlib

/-!
Verification development for a JSON-extraction web service (`src/app.py`).

The file embeds the two components of the source:

* `Uniap.APIKeyManager` — API-key bookkeeping (`create_api_key`,
  `validate_api_key`, `record_usage`, `get_key_stats`) as explicit state
  passing over association lists (Python dictionaries).
* `Uniap.UniversalJSONExtractor` — the multi-strategy JSON extraction
  pipeline (`extract_json_from_url`, `extract_json_from_script_tags`,
  `extract_json_ld`, `extract_json_from_text`, `find_json_objects`),
  with `json.loads` embedded as a recursive JSON parser and the three
  `re.findall` patterns embedded as a small backtracking matcher.

External collaborators (the HTTP transport, BeautifulSoup's HTML parse,
the clock, and the CSPRNG key generator) are passed in as explicit
arguments, mirroring the spec's "external collaborators" scoping.
-/

namespace Uniap

/-! ## Association lists: the embedding of Python dictionaries

`alGet` is dictionary lookup (first occurrence), `alSet` is
`d[k] = v` (update in place if present, else append, as Python
dictionaries preserve insertion order). -/

def alGet {α : Type} (l : List (String × α)) (k : String) : Option α :=
  match l with
  | [] => none
  | (k1, v) :: rest => if k1 = k then some v else alGet rest k

def alSet {α : Type} (l : List (String × α)) (k : String) (v : α) :
    List (String × α) :=
  match l with
  | [] => [(k, v)]
  | (k1, v1) :: rest =>
    if k1 = k then (k1, v) :: rest else (k1, v1) :: alSet rest k v

theorem alGet_alSet_self {α : Type} (l : List (String × α)) (k : String) (v : α) :
    alGet (alSet l k v) k = some v := by
  induction l with
  | nil => simp [alGet, alSet]
  | cons hd tl ih =>
    obtain ⟨k1, v1⟩ := hd
    by_cases h : k1 = k <;> simp [alGet, alSet, h, ih]

theorem alGet_alSet_ne {α : Type} (l : List (String × α)) (k k2 : String) (v : α)
    (h : k2 ≠ k) : alGet (alSet l k v) k2 = alGet l k2 := by
  have hk : k ≠ k2 := fun hc => h hc.symm
  induction l with
  | nil => simp [alGet, alSet, hk]
  | cons hd tl ih =>
    obtain ⟨k1, v1⟩ := hd
    by_cases h1 : k1 = k
    · subst h1
      simp [alGet, alSet, hk]
    · by_cases h2 : k1 = k2 <;> simp [alGet, alSet, h1, h2, h, hk, ih]

/-! ## JSON values and the embedding of `json.loads`

`Json` models the values `json.loads` can return.  Non-integer numeric
literals (fractions, exponents, `NaN`, `Infinity`) are kept as their raw
lexeme in `numRaw`: their float value is outside the embedding, but the
parser still accepts or rejects the same strings `json.loads` does. -/

inductive Json where
  | null : Json
  | bool (b : Bool) : Json
  | num (n : Int) : Json
  | numRaw (lexeme : String) : Json
  | str (s : String) : Json
  | arr (elems : List Json) : Json
  | obj (members : List (String × Json)) : Json

def isJsonWs (c : Char) : Bool :=
  c = ' ' || c = '\t' || c = '\n' || c = '\r'

def skipWs : List Char → List Char
  | [] => []
  | c :: rest => if isJsonWs c then skipWs rest else c :: rest

def hexVal (c : Char) : Option Nat :=
  if '0' ≤ c ∧ c ≤ '9' then some (c.toNat - '0'.toNat)
  else if 'a' ≤ c ∧ c ≤ 'f' then some (c.toNat - 'a'.toNat + 10)
  else if 'A' ≤ c ∧ c ≤ 'F' then some (c.toNat - 'A'.toNat + 10)
  else none

/-- Body of a JSON string literal, after the opening quote: returns the
decoded characters and the input remaining after the closing quote.
Unescaped control characters are rejected, as in strict-mode
`json.loads`. -/
def parseStringBody : List Char → Option (List Char × List Char)
  | [] => none
  | '"' :: rest => some ([], rest)
  | '\\' :: '"' :: rest =>
    (parseStringBody rest).map (fun p => ('"' :: p.1, p.2))
  | '\\' :: '\\' :: rest =>
    (parseStringBody rest).map (fun p => ('\\' :: p.1, p.2))
  | '\\' :: '/' :: rest =>
    (parseStringBody rest).map (fun p => ('/' :: p.1, p.2))
  | '\\' :: 'b' :: rest =>
    (parseStringBody rest).map (fun p => (Char.ofNat 8 :: p.1, p.2))
  | '\\' :: 'f' :: rest =>
    (parseStringBody rest).map (fun p => (Char.ofNat 12 :: p.1, p.2))
  | '\\' :: 'n' :: rest =>
    (parseStringBody rest).map (fun p => ('\n' :: p.1, p.2))
  | '\\' :: 'r' :: rest =>
    (parseStringBody rest).map (fun p => ('\r' :: p.1, p.2))
  | '\\' :: 't' :: rest =>
    (parseStringBody rest).map (fun p => ('\t' :: p.1, p.2))
  | '\\' :: 'u' :: h1 :: h2 :: h3 :: h4 :: rest =>
    match hexVal h1, hexVal h2, hexVal h3, hexVal h4 with
    | some a, some b, some c, some d =>
      (parseStringBody rest).map
        (fun p => (Char.ofNat (((a * 16 + b) * 16 + c) * 16 + d) :: p.1, p.2))
    | _, _, _, _ => none
  | '\\' :: _ => none
  | c :: rest =>
    if c.toNat < 32 then none
    else (parseStringBody rest).map (fun p => (c :: p.1, p.2))

/-- Longest run of decimal digits at the head of the input. -/
def digitsTake : List Char → List Char × List Char
  | [] => ([], [])
  | c :: rest =>
    if c.isDigit then
      let p := digitsTake rest
      (c :: p.1, p.2)
    else ([], c :: rest)

def digitsVal (ds : List Char) : Nat :=
  ds.foldl (fun a c => a * 10 + (c.toNat - '0'.toNat)) 0

/-- Exponent suffix `[eE][+-]?digits`, returning the consumed characters. -/
def parseExpPart : List Char → Option (List Char × List Char)
  | e :: rest =>
    if e = 'e' ∨ e = 'E' then
      match rest with
      | s :: rest2 =>
        if s = '+' ∨ s = '-' then
          let p := digitsTake rest2
          if p.1.isEmpty then none else some (e :: s :: p.1, p.2)
        else
          let p := digitsTake rest
          if p.1.isEmpty then none else some (e :: p.1, p.2)
      | [] => none
    else some ([], e :: rest)
  | [] => some ([], [])

/-- A JSON numeric literal: `-?(0|[1-9][0-9]*)(\.[0-9]+)?([eE][+-]?[0-9]+)?`.
Pure integers become `Json.num`; anything with a fraction or exponent
keeps its lexeme in `Json.numRaw`. -/
def parseNum (s : List Char) : Option (Json × List Char) :=
  let negPair : Bool × List Char :=
    match s with
    | '-' :: r => (true, r)
    | _ => (false, s)
  let neg := negPair.1
  let s1 := negPair.2
  match s1 with
  | [] => none
  | c :: _ =>
    if c.isDigit then
      let ip := digitsTake s1
      if 1 < ip.1.length ∧ ip.1.head? = some '0' then none
      else
        match ip.2 with
        | '.' :: r =>
          let fp := digitsTake r
          if fp.1.isEmpty then none
          else
            match parseExpPart fp.2 with
            | some ep =>
              let lexeme := (if neg then ['-'] else []) ++ ip.1 ++ '.' :: fp.1 ++ ep.1
              some (Json.numRaw (String.mk lexeme), ep.2)
            | none => none
        | 'e' :: _ =>
          match parseExpPart ip.2 with
          | some ep =>
            if ep.1.isEmpty then none
            else
              let lexeme := (if neg then ['-'] else []) ++ ip.1 ++ ep.1
              some (Json.numRaw (String.mk lexeme), ep.2)
          | none => none
        | 'E' :: _ =>
          match parseExpPart ip.2 with
          | some ep =>
            if ep.1.isEmpty then none
            else
              let lexeme := (if neg then ['-'] else []) ++ ip.1 ++ ep.1
              some (Json.numRaw (String.mk lexeme), ep.2)
          | none => none
        | _ =>
          let v : Int := Int.ofNat (digitsVal ip.1)
          some (Json.num (if neg then -v else v), ip.2)
    else none

mutual

/-- One JSON value, fuel-bounded; mirrors `json.loads` (which also accepts
the non-standard literals `NaN`, `Infinity` and `-Infinity`). -/
def parseVal : Nat → List Char → Option (Json × List Char)
  | 0, _ => none
  | _ + 1, [] => none
  | fuel + 1, s =>
    match s with
    | 'n' :: 'u' :: 'l' :: 'l' :: r => some (Json.null, r)
    | 't' :: 'r' :: 'u' :: 'e' :: r => some (Json.bool true, r)
    | 'f' :: 'a' :: 'l' :: 's' :: 'e' :: r => some (Json.bool false, r)
    | 'N' :: 'a' :: 'N' :: r => some (Json.numRaw "NaN", r)
    | 'I' :: 'n' :: 'f' :: 'i' :: 'n' :: 'i' :: 't' :: 'y' :: r =>
      some (Json.numRaw "Infinity", r)
    | '-' :: 'I' :: 'n' :: 'f' :: 'i' :: 'n' :: 'i' :: 't' :: 'y' :: r =>
      some (Json.numRaw "-Infinity", r)
    | '"' :: r =>
      (parseStringBody r).map (fun p => (Json.str (String.mk p.1), p.2))
    | '[' :: r =>
      match skipWs r with
      | ']' :: r2 => some (Json.arr [], r2)
      | r2 =>
        (parseArrItems fuel r2).map (fun p => (Json.arr p.1, p.2))
    | '{' :: r =>
      match skipWs r with
      | '}' :: r2 => some (Json.obj [], r2)
      | r2 =>
        (parseObjItems fuel r2).map (fun p => (Json.obj p.1, p.2))
    | _ => parseNum s

/-- Comma-separated array elements, positioned at the first element;
consumes the closing bracket. -/
def parseArrItems : Nat → List Char → Option (List Json × List Char)
  | 0, _ => none
  | fuel + 1, s =>
    match parseVal fuel s with
    | none => none
    | some (v, rest) =>
      match skipWs rest with
      | ',' :: r2 =>
        (parseArrItems fuel (skipWs r2)).map (fun p => (v :: p.1, p.2))
      | ']' :: r2 => some ([v], r2)
      | _ => none

/-- Comma-separated object members, positioned at the first key;
consumes the closing brace. -/
def parseObjItems : Nat → List Char → Option (List (String × Json) × List Char)
  | 0, _ => none
  | fuel + 1, s =>
    match s with
    | '"' :: r =>
      match parseStringBody r with
      | none => none
      | some (key, rest) =>
        match skipWs rest with
        | ':' :: r2 =>
          match parseVal fuel (skipWs r2) with
          | none => none
          | some (v, rest2) =>
            match skipWs rest2 with
            | ',' :: r3 =>
              (parseObjItems fuel (skipWs r3)).map
                (fun p => ((String.mk key, v) :: p.1, p.2))
            | '}' :: r3 => some ([(String.mk key, v)], r3)
            | _ => none
        | _ => none
    | _ => none

end

/-- The embedding of `json.loads`: parse one JSON document, rejecting
trailing non-whitespace. -/
def jsonParse (s : String) : Option Json :=
  match parseVal (2 * s.length + 2) (skipWs s.data) with
  | some (v, rest) => if (skipWs rest).isEmpty then some v else none
  | none => none

/-! ## The embedding of `re.findall` for the three patterns of
`find_json_objects`

Each pattern is a sequence of literal characters and greedy starred
character classes, which is all the three source patterns use.  The
matcher reproduces the `re` module's backtracking order (greedy: a
starred class first consumes its longest run, then gives characters
back), and `reFindAll` reproduces `re.findall`'s left-to-right
non-overlapping scan. -/

inductive CharClass where
  | notBraces : CharClass
  | notBrackets : CharClass

def CharClass.mem : CharClass → Char → Bool
  | CharClass.notBraces, c => c ≠ '{' && c ≠ '}'
  | CharClass.notBrackets, c => c ≠ '[' && c ≠ ']'

inductive RTok where
  | lit (c : Char) : RTok
  | star (cls : CharClass) : RTok

/-- Length of the longest head run inside the class. -/
def runLen (cls : CharClass) : List Char → Nat
  | [] => 0
  | c :: rest => if cls.mem c then runLen cls rest + 1 else 0

/-- Backtracking search for a starred class: try consuming `i`
characters (largest first), matching the rest of the pattern with `f`
on what remains. -/
def starSearch (f : List Char → Option Nat) (s : List Char) : Nat → Option Nat
  | 0 => f s
  | i + 1 =>
    match f (s.drop (i + 1)) with
    | some n => some (i + 1 + n)
    | none => starSearch f s i

/-- Number of characters consumed by a match of the token sequence
anchored at the head of the input, or `none`; greedy stars with
backtracking, as in the `re` module. -/
def matchToks : List RTok → List Char → Option Nat
  | [], _ => some 0
  | RTok.lit _ :: _, [] => none
  | RTok.lit c :: ts, x :: s =>
    if x = c then (matchToks ts s).map (· + 1) else none
  | RTok.star cls :: ts, s => starSearch (matchToks ts) s (runLen cls s)

/-- The scan loop of `re.findall`: at each position try a match; a
non-empty match is recorded and the scan resumes after it, otherwise
the scan advances one character. -/
def findAllGo (ts : List RTok) : Nat → List Char → List String
  | _, [] => []
  | 0, _ => []
  | fuel + 1, x :: rest =>
    match matchToks ts (x :: rest) with
    | some 0 => "" :: findAllGo ts fuel rest
    | some (n + 1) =>
      String.mk ((x :: rest).take (n + 1)) :: findAllGo ts fuel ((x :: rest).drop (n + 1))
    | none => findAllGo ts fuel rest

def reFindAll (ts : List RTok) (s : String) : List String :=
  findAllGo ts s.data.length s.data

def nb : RTok := RTok.star CharClass.notBraces
def nk : RTok := RTok.star CharClass.notBrackets

/-- First source pattern: a two-level nested object literal. -/
def pattern1 : List RTok :=
  [RTok.lit '{', nb, RTok.lit '{', nb, RTok.lit '}', nb, RTok.lit '}']

/-- Second source pattern: a flat object with a quoted-key/colon pair,
plus trailing non-brace characters. -/
def pattern2 : List RTok :=
  [RTok.lit '{', nb, RTok.lit '"', nb, RTok.lit '"', RTok.lit ':', nb,
   RTok.lit '}', nb]

/-- Third source pattern: an array containing an object literal. -/
def pattern3 : List RTok :=
  [RTok.lit '[', nk, RTok.lit '{', nk, RTok.lit '}', nk, RTok.lit ']']

def jsonPatterns : List (List RTok) := [pattern1, pattern2, pattern3]

/-- `UniversalJSONExtractor.find_json_objects`: run the three patterns
independently over the text and concatenate all matches in pattern
order, then match order. -/
def find_json_objects (text : String) : List String :=
  jsonPatterns.foldl (fun acc p => acc ++ reFindAll p text) []

/-- Python's substring containment (the `in` operator on strings). -/
def listContains (needle : List Char) : List Char → Bool
  | [] => needle.isEmpty
  | c :: rest => needle.isPrefixOf (c :: rest) || listContains needle rest

def strContains (hay needle : String) : Bool :=
  listContains needle.data hay.data

/-! ## The extraction engine (`UniversalJSONExtractor`)

The HTTP transport and BeautifulSoup are external collaborators: a
fetch is an argument of type `String → Except String HttpResponse`
(the error carries `str(e)` of the raised `RequestException`, which
includes `raise_for_status` failures), and the HTML parse is an
argument `scriptsOf : String → List ScriptTag` giving the list that
`BeautifulSoup(html).find_all` would return — document order, with
each tag's `type` attribute and its `.string` content (`none` when the
tag has no single string child). -/

structure ScriptTag where
  typeAttr : Option String
  content : Option String

structure HttpResponse where
  contentTypeHeader : Option String
  body : String
  byteLen : Nat

/-- One entry of the source's `json_objects` list, tagged by its
`type` field. -/
inductive ExtractedObject where
  | direct_json (data : Json) : ExtractedObject
  | script_tag (data : Json) (script_type : String) : ExtractedObject
  | json_ld (data : Json) : ExtractedObject
  | text_pattern (data : Json) : ExtractedObject
  | forced_json (data : Json) : ExtractedObject

/-- The `results` dictionary of `extract_json_from_url`.  `size_kb` is
kept in hundredths (`round(len/1024, 2)` modelled as round-half-up on
rationals; exact float ties are outside the embedding and no claim
depends on them). -/
structure ExtractionResult where
  success : Bool
  url : String
  data : Option Json
  json_objects : List ExtractedObject
  error : Option String
  content_type : Option String
  size_kb_hundredths : Nat
  extraction_method : Option String
  timestamp : String

def sizeKbHundredths (byteLen : Nat) : Nat :=
  (byteLen * 100 * 2 + 1024) / 2048

/-- Scheme detection of `urllib.parse.urlparse`: the part before the
first colon is a scheme when it is non-empty, starts with an ASCII
letter, and consists of letters, digits, `+`, `-` and `.`. -/
def isSchemeChar (c : Char) : Bool :=
  c.isAlpha || c.isDigit || c = '+' || c = '-' || c = '.'

def beforeColon : List Char → Option (List Char)
  | [] => none
  | ':' :: _ => some []
  | c :: rest => (beforeColon rest).map (c :: ·)

def urlHasScheme (url : String) : Bool :=
  match beforeColon url.data with
  | none => false
  | some pre =>
    match pre with
    | [] => false
    | c :: _ => c.isAlpha && pre.all isSchemeChar

/-- The URL normalisation step of `extract_json_from_url`: prepend
`https://` when `urlparse` finds no scheme. -/
def normalizeUrl (url : String) : String :=
  if urlHasScheme url then url else "https://" ++ url

/-- `UniversalJSONExtractor.extract_json_from_script_tags`, given the
script tags BeautifulSoup finds: for every tag with non-empty string
content, run `find_json_objects` and keep every candidate that parses,
tagging the script's `type` attribute (default `"unknown"`). -/
def extract_json_from_script_tags (scripts : List ScriptTag) : List ExtractedObject :=
  scripts.foldl
    (fun acc tag =>
      match tag.content with
      | none => acc
      | some s =>
        if s = "" then acc
        else
          acc ++ (find_json_objects s).filterMap
            (fun m => (jsonParse m).map
              (fun j => ExtractedObject.script_tag j (tag.typeAttr.getD "unknown"))))
    []

/-- `UniversalJSONExtractor.extract_json_ld`: only `<script>` tags with
`type="application/ld+json"`, each parsed directly as one JSON value. -/
def extract_json_ld (scripts : List ScriptTag) : List ExtractedObject :=
  (scripts.filter (fun tag => tag.typeAttr = some "application/ld+json")).foldl
    (fun acc tag =>
      match tag.content with
      | none => acc
      | some s =>
        if s = "" then acc
        else
          match jsonParse s with
          | some j => acc ++ [ExtractedObject.json_ld j]
          | none => acc)
    []

/-- `UniversalJSONExtractor.extract_json_from_text`: pattern candidates
over the raw text, keeping every candidate that parses. -/
def extract_json_from_text (text : String) : List ExtractedObject :=
  (find_json_objects text).filterMap
    (fun m => (jsonParse m).map ExtractedObject.text_pattern)

/-- `UniversalJSONExtractor.extract_json_from_url`.  The `results`
dictionary is filled before normalisation, so the `url` field keeps
the raw input; the fetch is applied to the normalised URL. -/
def extract_json_from_url (scriptsOf : String → List ScriptTag)
    (fetch : String → Except String HttpResponse)
    (now : String) (url : String) : ExtractionResult :=
  let base : ExtractionResult :=
    { success := false, url := url, data := none, json_objects := [],
      error := none, content_type := none, size_kb_hundredths := 0,
      extraction_method := none, timestamp := now }
  match fetch (normalizeUrl url) with
  | Except.error e =>
    { base with error := some ("Failed to fetch the URL: " ++ e) }
  | Except.ok resp =>
    let ct := resp.contentTypeHeader.getD ""
    let base2 := { base with content_type := some ct,
                             size_kb_hundredths := sizeKbHundredths resp.byteLen }
    let direct : Option Json :=
      if strContains ct "application/json" then jsonParse resp.body else none
    match direct with
    | some j =>
      { base2 with success := true, data := some j,
                   json_objects := [ExtractedObject.direct_json j],
                   extraction_method := some "direct_json" }
    | none =>
      let sObjs := extract_json_from_script_tags (scriptsOf resp.body)
      if sObjs.isEmpty = false then
        { base2 with success := true, json_objects := sObjs,
                     extraction_method := some "script_tags" }
      else
        let ldObjs := extract_json_ld (scriptsOf resp.body)
        if ldObjs.isEmpty = false then
          { base2 with success := true, json_objects := ldObjs,
                       extraction_method := some "json_ld" }
        else
          let tObjs := extract_json_from_text resp.body
          if tObjs.isEmpty = false then
            { base2 with success := true, json_objects := tObjs,
                         extraction_method := some "text_patterns" }
          else
            match jsonParse resp.body with
            | some j =>
              { base2 with success := true, data := some j,
                           json_objects := [ExtractedObject.forced_json j],
                           extraction_method := some "forced_json" }
            | none =>
              { base2 with error := some "No JSON data found in the provided URL" }

/-- Spec-level view of the five strategies, in the spec's fixed order,
as the list of objects each would yield on the fetched response; used
to state the stop-at-first-nonempty property. -/
def strategyYield (body ct : String) (scripts : List ScriptTag) : Nat → List ExtractedObject
  | 0 =>
    if strContains ct "application/json" then
      match jsonParse body with
      | some j => [ExtractedObject.direct_json j]
      | none => []
    else []
  | 1 => extract_json_from_script_tags scripts
  | 2 => extract_json_ld scripts
  | 3 => extract_json_from_text body
  | 4 =>
    match jsonParse body with
    | some j => [ExtractedObject.forced_json j]
    | none => []
  | _ => []

def strategyName : Nat → String
  | 0 => "direct_json"
  | 1 => "script_tags"
  | 2 => "json_ld"
  | 3 => "text_patterns"
  | 4 => "forced_json"
  | _ => "none"

/-! ## The access controller (`APIKeyManager`)

State is the pair of dictionaries the source keeps: `api_keys`
(key → record) and `usage_data` (day → key → count).  The clock
(`datetime.now()`, both the `%Y-%m-%d` day string and the full
isoformat timestamp) and the CSPRNG-generated key are external and
passed as arguments. -/

structure KeyData where
  user_email : String
  api_key : String
  plan_type : String
  requests_per_day : Nat
  rate_limit : Nat
  created_at : String
  is_active : Bool
  total_requests : Nat
  last_used : Option String
deriving DecidableEq

structure ManagerState where
  api_keys : List (String × KeyData)
  usage_data : List (String × List (String × Nat))
deriving DecidableEq

def initState : ManagerState := ⟨[], []⟩

/-- The static plan table of `create_api_key`, with
`limits.get(plan_type, limits['free'])` semantics: the pair is
(`requests_per_day`, `rate_limit`). -/
def planLimits (plan : String) : Nat × Nat :=
  if plan = "free" then (100, 10)
  else if plan = "premium" then (1000, 100)
  else if plan = "enterprise" then (10000, 1000)
  else (100, 10)

/-- `APIKeyManager.create_api_key`; `key` is the freshly generated
random token, `now` the creation timestamp. -/
def create_api_key (st : ManagerState) (user_email plan_type key now : String) :
    (String × KeyData) × ManagerState :=
  let kd : KeyData :=
    { user_email := user_email, api_key := key, plan_type := plan_type,
      requests_per_day := (planLimits plan_type).1,
      rate_limit := (planLimits plan_type).2,
      created_at := now, is_active := true, total_requests := 0,
      last_used := none }
  ((key, kd), ⟨alSet st.api_keys key kd, st.usage_data⟩)

def ledgerGet (usage : List (String × List (String × Nat))) (day key : String) : Nat :=
  match alGet usage day with
  | none => 0
  | some m => (alGet m key).getD 0

/-- The two defensive inserts of `validate_api_key` and `record_usage`:
ensure `usage_data[today]` and `usage_data[today][key]` exist. -/
def ensureLedger (usage : List (String × List (String × Nat))) (day key : String) :
    List (String × List (String × Nat)) :=
  let m := (alGet usage day).getD []
  match alGet m key with
  | some _ => alSet usage day m
  | none => alSet usage day (alSet m key 0)

/-- `usage_data[today][key] += 1` after the defensive inserts. -/
def bumpLedger (usage : List (String × List (String × Nat))) (day key : String) :
    List (String × List (String × Nat)) :=
  let m := (alGet usage day).getD []
  let c := (alGet m key).getD 0
  alSet usage day (alSet m key (c + 1))

inductive ValidateResult where
  | failure (reason : String) : ValidateResult
  | success (record : KeyData) : ValidateResult
deriving DecidableEq

def ValidateResult.isSuccess : ValidateResult → Bool
  | ValidateResult.failure _ => false
  | ValidateResult.success _ => true

/-- `APIKeyManager.validate_api_key`; `today` is
`datetime.now().strftime('%Y-%m-%d')`.  Returns the result together
with the (possibly mutated) state — the source inserts zero ledger
entries while checking the daily limit. -/
def validate_api_key (st : ManagerState) (api_key today : String) :
    ValidateResult × ManagerState :=
  match alGet st.api_keys api_key with
  | none => (ValidateResult.failure "Invalid API key", st)
  | some kd =>
    if kd.is_active = false then (ValidateResult.failure "API key is inactive", st)
    else
      let st2 : ManagerState := ⟨st.api_keys, ensureLedger st.usage_data today api_key⟩
      if kd.requests_per_day ≤ ledgerGet st2.usage_data today api_key then
        (ValidateResult.failure "Daily request limit exceeded", st2)
      else
        (ValidateResult.success kd, st2)

/-- `APIKeyManager.record_usage`: increment today's ledger entry, then
the record's lifetime counter and `last_used`.  The Bool is `false`
when the source would raise `KeyError` (unknown key) after the ledger
increment; the returned state holds the mutations performed up to that
point. -/
def record_usage (st : ManagerState) (api_key today now : String) :
    Bool × ManagerState :=
  let usage2 := bumpLedger st.usage_data today api_key
  match alGet st.api_keys api_key with
  | some kd =>
    (true,
     ⟨alSet st.api_keys api_key
        { kd with total_requests := kd.total_requests + 1, last_used := some now },
      usage2⟩)
  | none => (false, ⟨st.api_keys, usage2⟩)

structure KeyStats where
  api_key : String
  user_email : String
  plan_type : String
  today_usage : Nat
  daily_limit : Nat
  total_requests : Nat
  last_used : Option String
  created_at : String
deriving DecidableEq

/-- `APIKeyManager.get_key_stats` (read-only). -/
def get_key_stats (st : ManagerState) (api_key today : String) : Option KeyStats :=
  match alGet st.api_keys api_key with
  | none => none
  | some kd =>
    some { api_key := api_key, user_email := kd.user_email,
           plan_type := kd.plan_type,
           today_usage := ledgerGet st.usage_data today api_key,
           daily_limit := kd.requests_per_day,
           total_requests := kd.total_requests,
           last_used := kd.last_used, created_at := kd.created_at }

/-! ## The authenticated extraction route (`api_extract_json`) -/

structure ExtractRequest where
  xApiKey : Option String
  authorization : Option String
  body : Option (List (String × String))

inductive ApiResponse where
  | httpError (status : Nat) (message : String) : ApiResponse
  | extraction (r : ExtractionResult) : ApiResponse
  | serverError : ApiResponse

/-- `request.headers.get('X-API-Key') or
request.headers.get('Authorization', '').replace('Bearer ', '')`. -/
def headerApiKey (req : ExtractRequest) : String :=
  match req.xApiKey with
  | some k => if k = "" then (req.authorization.getD "").replace "Bearer " "" else k
  | none => (req.authorization.getD "").replace "Bearer " ""

/-- The `/api/extract` route.  `extractor` is
`extractor.extract_json_from_url` with its own collaborators already
applied.  Returns the response, the manager state after the call, and
how many times `record_usage` was invoked. -/
def api_extract_json (extractor : String → ExtractionResult)
    (st : ManagerState) (today now : String) (req : ExtractRequest) :
    ApiResponse × ManagerState × Nat :=
  let apiKey := headerApiKey req
  if apiKey = "" then (ApiResponse.httpError 401 "API key required", st, 0)
  else
    match validate_api_key st apiKey today with
    | (ValidateResult.failure reason, st1) =>
      (ApiResponse.httpError 401 reason, st1, 0)
    | (ValidateResult.success _, st1) =>
      match req.body with
      | none => (ApiResponse.httpError 400 "JSON data required", st1, 0)
      | some kvs =>
        if kvs.isEmpty then (ApiResponse.httpError 400 "JSON data required", st1, 0)
        else
          match alGet kvs "url" with
          | none => (ApiResponse.httpError 400 "URL parameter required", st1, 0)
          | some u =>
            if u = "" then (ApiResponse.httpError 400 "URL parameter required", st1, 0)
            else
              let result := extractor u
              match record_usage st1 apiKey today now with
              | (true, st2) => (ApiResponse.extraction result, st2, 1)
              | (false, st2) => (ApiResponse.serverError, st2, 1)

/-! ## Derived definitions used by the claims -/

/-- `record_usage` repeated `n` times (the shape of `n` billed calls
within one day). -/
def iterRecord : Nat → ManagerState → String → String → String → ManagerState
  | 0, st, _, _, _ => st
  | n + 1, st, key, today, now =>
    iterRecord n (record_usage st key today now).2 key today now

/-- Concrete fixture: the manager state after creating one free-plan
key `"api_k1"`. -/
def stFree : ManagerState := (create_api_key initState "u@e.com" "free" "api_k1" "t0").2

def kdFree : KeyData := (create_api_key initState "u@e.com" "free" "api_k1" "t0").1.2

/-- Sum of a key's ledger entries over all calendar days. -/
def ledgerSum (usage : List (String × List (String × Nat))) (key : String) : Nat :=
  (usage.map (fun p => (alGet p.2 key).getD 0)).sum

/-- The claimed invariant: every stored record's lifetime counter
equals the sum of that key's ledger entries over all days. -/
def TotalsOk (st : ManagerState) : Prop :=
  ∀ key kd, alGet st.api_keys key = some kd →
    kd.total_requests = ledgerSum st.usage_data key

/-- Auxiliary invariant: the ledger holds no usage for keys that are
not in the store (true of every reachable state, and needed for the
fresh-key case of `create_api_key`). -/
def KnownKeysOnly (st : ManagerState) : Prop :=
  ∀ key, alGet st.api_keys key = none → ledgerSum st.usage_data key = 0

/-- One `APIKeyManager` operation, as dispatched by the routes:
`create_api_key` receives a freshly generated (hence unused) random
key, `record_usage` is only ever called on a key that just passed
validation (hence present), `validate_api_key` may be called on
anything, and `get_key_stats` reads without mutating. -/
inductive MgrStep : ManagerState → ManagerState → Prop where
  | create (st : ManagerState) (email plan key now : String)
      (hfresh : alGet st.api_keys key = none) :
      MgrStep st (create_api_key st email plan key now).2
  | validate (st : ManagerState) (key today : String) :
      MgrStep st (validate_api_key st key today).2
  | record (st : ManagerState) (key today now : String)
      (hknown : alGet st.api_keys key ≠ none) :
      MgrStep st (record_usage st key today now).2
  | stats (st : ManagerState) (key today : String) : MgrStep st st

def MgrReachable (st : ManagerState) : Prop :=
  Relation.ReflTransGen MgrStep initState st

/-- Concrete fixture for the JSON-LD scenario: an HTML page whose only
script tag is `<script type="application/ld+json">` holding the JSON
object with member a = 1. -/
def c1Body : String :=
  "<html><head><script type=\"application/ld+json\">\x7b\"a\":1\x7d</script></head><body></body></html>"

/-- The BeautifulSoup oracle for `c1Body`: one script tag, type
`application/ld+json`, string content the JSON object. -/
def c1ScriptsOf : String → List ScriptTag := fun s =>
  if s = c1Body then [⟨some "application/ld+json", some "\x7b\"a\":1\x7d"⟩] else []

def c1Fetch : String → Except String HttpResponse := fun _ =>
  Except.ok ⟨some "text/html; charset=utf-8", c1Body, c1Body.length⟩

/-- A concrete extractor used by the route fixtures (its collaborators
are fixed; the route treats it as opaque). -/
def demoExtractor : String → ExtractionResult := fun u =>
  extract_json_from_url (fun _ => []) (fun _ => Except.error "refused") "t0" u

/-! ## Claims -/

/-- Claim C9: for every plan name, `create_api_key` assigns limits from
the static table — free: 100 requests per day and rate 10, premium:
1000 and 100, enterprise: 10000 and 1000 — and every plan name outside
the table gets free's limits. -/
theorem create_api_key_plan_table (st : ManagerState) (email plan key now : String) :
    (plan = "free" →
      ((create_api_key st email plan key now).1.2.requests_per_day = 100 ∧
       (create_api_key st email plan key now).1.2.rate_limit = 10)) ∧
    (plan = "premium" →
      ((create_api_key st email plan key now).1.2.requests_per_day = 1000 ∧
       (create_api_key st email plan key now).1.2.rate_limit = 100)) ∧
    (plan = "enterprise" →
      ((create_api_key st email plan key now).1.2.requests_per_day = 10000 ∧
       (create_api_key st email plan key now).1.2.rate_limit = 1000)) ∧
    (plan ≠ "free" → plan ≠ "premium" → plan ≠ "enterprise" →
      ((create_api_key st email plan key now).1.2.requests_per_day = 100 ∧
       (create_api_key st email plan key now).1.2.rate_limit = 10)) := by
  refine ⟨fun h => ?_, fun h => ?_, fun h => ?_, fun h1 h2 h3 => ?_⟩ <;>
    simp [create_api_key, planLimits, *]

/-- Witness for C9: the table at `"premium"` and at the unknown plan
name `"gold"`. -/
theorem create_api_key_plan_table_witness :
    ((create_api_key initState "a@b.com" "premium" "k1" "t0").1.2.requests_per_day = 1000 ∧
     (create_api_key initState "a@b.com" "premium" "k1" "t0").1.2.rate_limit = 100) ∧
    ((create_api_key initState "a@b.com" "gold" "k1" "t0").1.2.requests_per_day = 100 ∧
     (create_api_key initState "a@b.com" "gold" "k1" "t0").1.2.rate_limit = 10) :=
  ⟨(create_api_key_plan_table initState "a@b.com" "premium" "k1" "t0").2.1 rfl,
   (create_api_key_plan_table initState "a@b.com" "gold" "k1" "t0").2.2.2
     (by decide) (by decide) (by decide)⟩

/-- Claim C10: an unknown plan name is stored verbatim in the record's
`plan_type` field (while the limits are free's), and `get_key_stats`
for that key reports the unknown plan name, not `"free"`. -/
theorem create_api_key_unknown_plan_verbatim (st : ManagerState)
    (email plan key now today : String)
    (h1 : plan ≠ "free") (h2 : plan ≠ "premium") (h3 : plan ≠ "enterprise") :
    ((create_api_key st email plan key now).1.2.plan_type = plan ∧
     (create_api_key st email plan key now).1.2.requests_per_day = 100 ∧
     (create_api_key st email plan key now).1.2.rate_limit = 10) ∧
    ∃ stats, get_key_stats (create_api_key st email plan key now).2 key today = some stats ∧
      stats.plan_type = plan ∧ stats.daily_limit = 100 := by
  constructor
  · exact ⟨by rfl,
           by simp [create_api_key, planLimits, h1, h2, h3],
           by simp [create_api_key, planLimits, h1, h2, h3]⟩
  · have hget : get_key_stats (create_api_key st email plan key now).2 key today =
        some { api_key := key, user_email := email, plan_type := plan,
               today_usage := ledgerGet st.usage_data today key,
               daily_limit := (planLimits plan).1,
               total_requests := 0, last_used := none, created_at := now } := by
      simp [get_key_stats, create_api_key, alGet_alSet_self]
    refine ⟨_, hget, by rfl, ?_⟩
    simp [planLimits, h1, h2, h3]

/-! ### Ledger lemmas -/

theorem ledgerGet_ensure_self (u : List (String × List (String × Nat))) (d k : String) :
    ledgerGet (ensureLedger u d k) d k = ledgerGet u d k := by
  unfold ledgerGet ensureLedger
  cases hu : alGet u d with
  | none => cases hk : alGet ([] : List (String × Nat)) k <;>
      simp_all [alGet, alGet_alSet_self]
  | some m => cases hk : alGet m k <;>
      simp_all [alGet_alSet_self]

theorem ledgerGet_bump_self (u : List (String × List (String × Nat))) (d k : String) :
    ledgerGet (bumpLedger u d k) d k = ledgerGet u d k + 1 := by
  unfold ledgerGet bumpLedger
  cases hu : alGet u d with
  | none => simp [alGet_alSet_self, hu, alGet]
  | some m => cases hk : alGet m k <;> simp [alGet_alSet_self, hu, hk]

theorem ledgerGet_bump_other_day (u : List (String × List (String × Nat)))
    (d k d2 k2 : String) (h : d2 ≠ d) :
    ledgerGet (bumpLedger u d k) d2 k2 = ledgerGet u d2 k2 := by
  unfold ledgerGet bumpLedger
  rw [alGet_alSet_ne _ _ _ _ h]

theorem record_usage_api_keys (st : ManagerState) (key today now : String)
    (kd : KeyData) (h : alGet st.api_keys key = some kd) :
    (record_usage st key today now).2.api_keys =
      alSet st.api_keys key
        { kd with total_requests := kd.total_requests + 1, last_used := some now } := by
  simp [record_usage, h]

theorem record_usage_usage_data (st : ManagerState) (key today now : String) :
    (record_usage st key today now).2.usage_data = bumpLedger st.usage_data today key := by
  unfold record_usage
  cases alGet st.api_keys key <;> rfl

theorem iterRecord_props (n : Nat) (st : ManagerState) (key today now : String)
    (kd : KeyData) (h : alGet st.api_keys key = some kd) :
    ∃ kd2, alGet (iterRecord n st key today now).api_keys key = some kd2 ∧
      kd2.is_active = kd.is_active ∧
      kd2.requests_per_day = kd.requests_per_day ∧
      kd2.total_requests = kd.total_requests + n ∧
      ledgerGet (iterRecord n st key today now).usage_data today key =
        ledgerGet st.usage_data today key + n ∧
      ∀ d2, d2 ≠ today →
        ledgerGet (iterRecord n st key today now).usage_data d2 key =
          ledgerGet st.usage_data d2 key := by
  induction n generalizing st kd with
  | zero => exact ⟨kd, h, rfl, rfl, rfl, rfl, fun _ _ => rfl⟩
  | succ n ih =>
    have hmem : alGet ((record_usage st key today now).2).api_keys key =
        some { kd with total_requests := kd.total_requests + 1, last_used := some now } := by
      rw [record_usage_api_keys st key today now kd h]
      exact alGet_alSet_self _ _ _
    obtain ⟨kd2, hk2, ha, hr, ht, hl, ho⟩ := ih _ _ hmem
    refine ⟨kd2, hk2, by rw [ha], by rw [hr], ?_, ?_, ?_⟩
    · rw [ht]; dsimp only; omega
    · show ledgerGet (iterRecord n (record_usage st key today now).2 key today now).usage_data
          today key = ledgerGet st.usage_data today key + (n + 1)
      rw [hl, record_usage_usage_data, ledgerGet_bump_self]
      omega
    · intro d2 hd2
      show ledgerGet (iterRecord n (record_usage st key today now).2 key today now).usage_data
          d2 key = ledgerGet st.usage_data d2 key
      rw [ho d2 hd2, record_usage_usage_data]
      exact ledgerGet_bump_other_day _ _ _ _ _ hd2

/-- Claim C7: `validate_api_key` checks failure reasons in order —
unknown key, inactive key, daily limit — otherwise succeeds; after
`requests_per_day` `record_usage` calls within one day the next
validation fails with the limit message, while a validation on a
different, fresh day succeeds again. -/
theorem validate_api_key_order (st : ManagerState) (key today now : String) :
    (alGet st.api_keys key = none →
      validate_api_key st key today = (ValidateResult.failure "Invalid API key", st)) ∧
    (∀ kd, alGet st.api_keys key = some kd → kd.is_active = false →
      validate_api_key st key today = (ValidateResult.failure "API key is inactive", st)) ∧
    (∀ kd, alGet st.api_keys key = some kd → kd.is_active = true →
      kd.requests_per_day ≤ ledgerGet st.usage_data today key →
      (validate_api_key st key today).1 = ValidateResult.failure "Daily request limit exceeded") ∧
    (∀ kd, alGet st.api_keys key = some kd → kd.is_active = true →
      ledgerGet st.usage_data today key < kd.requests_per_day →
      (validate_api_key st key today).1 = ValidateResult.success kd) ∧
    (∀ kd, alGet st.api_keys key = some kd → kd.is_active = true →
      (validate_api_key (iterRecord kd.requests_per_day st key today now) key today).1 =
        ValidateResult.failure "Daily request limit exceeded") ∧
    (∀ kd day2, alGet st.api_keys key = some kd → kd.is_active = true →
      day2 ≠ today → ledgerGet st.usage_data day2 key = 0 →
      0 < kd.requests_per_day →
      (validate_api_key (iterRecord kd.requests_per_day st key today now) key day2).1.isSuccess
        = true) := by
  refine ⟨fun h => ?_, fun kd h hact => ?_, fun kd h hact hle => ?_,
          fun kd h hact hlt => ?_, fun kd h hact => ?_,
          fun kd day2 h hact hday hfresh hpos => ?_⟩
  · simp [validate_api_key, h]
  · simp [validate_api_key, h, hact]
  · have : ledgerGet (ensureLedger st.usage_data today key) today key =
        ledgerGet st.usage_data today key := ledgerGet_ensure_self _ _ _
    simp [validate_api_key, h, hact, this, hle]
  · have : ledgerGet (ensureLedger st.usage_data today key) today key =
        ledgerGet st.usage_data today key := ledgerGet_ensure_self _ _ _
    simp [validate_api_key, h, hact, this, Nat.not_le.mpr hlt]
  · obtain ⟨kd2, hk2, ha, hr, _, hl, _⟩ :=
      iterRecord_props kd.requests_per_day st key today now kd h
    have hcount : kd2.requests_per_day ≤
        ledgerGet (ensureLedger (iterRecord kd.requests_per_day st key today now).usage_data
          today key) today key := by
      rw [ledgerGet_ensure_self, hl, hr]; omega
    simp [validate_api_key, hk2, ha, hact, hcount]
  · obtain ⟨kd2, hk2, ha, hr, _, _, ho⟩ :=
      iterRecord_props kd.requests_per_day st key today now kd h
    have hcount : ¬ kd2.requests_per_day ≤
        ledgerGet (ensureLedger (iterRecord kd.requests_per_day st key today now).usage_data
          day2 key) day2 key := by
      rw [ledgerGet_ensure_self, ho day2 hday, hfresh, hr]; omega
    simp [validate_api_key, hk2, ha, hact, hcount, ValidateResult.isSuccess]

/-- Witness for C7: a fresh free-plan key (daily limit 100); after 100
recorded calls on 2024-01-01, validation that day fails with the limit
message and validation on 2024-01-02 succeeds. -/
theorem validate_api_key_order_witness :
    (validate_api_key (iterRecord 100 stFree "api_k1" "2024-01-01" "t1")
        "api_k1" "2024-01-01").1 =
      ValidateResult.failure "Daily request limit exceeded" ∧
    (validate_api_key (iterRecord 100 stFree "api_k1" "2024-01-01" "t1")
        "api_k1" "2024-01-02").1.isSuccess = true :=
  ⟨(validate_api_key_order stFree "api_k1" "2024-01-01" "t1").2.2.2.2.1
      kdFree (by rfl) (by rfl),
   (validate_api_key_order stFree "api_k1" "2024-01-01" "t1").2.2.2.2.2
      kdFree "2024-01-02" (by rfl) (by rfl) (by decide) (by rfl) (by decide)⟩

/-! ### Ledger-sum lemmas for the totals invariant -/

theorem ledgerSum_alSet (u : List (String × List (String × Nat))) (d : String)
    (m2 : List (String × Nat)) (k : String) :
    ledgerSum (alSet u d m2) k + (alGet ((alGet u d).getD []) k).getD 0 =
      ledgerSum u k + (alGet m2 k).getD 0 := by
  induction u with
  | nil => simp [ledgerSum, alSet, alGet]
  | cons hd tl ih =>
    obtain ⟨d1, m1⟩ := hd
    by_cases h : d1 = d
    · subst h
      simp [ledgerSum, alSet, alGet]
      omega
    · simp only [ledgerSum, alSet, alGet, if_neg h, List.map_cons, List.sum_cons] at *
      omega

theorem ledgerSum_ensure (u : List (String × List (String × Nat))) (d k k2 : String) :
    ledgerSum (ensureLedger u d k) k2 = ledgerSum u k2 := by
  simp only [ensureLedger]
  cases hk : alGet ((alGet u d).getD []) k with
  | some c =>
    show ledgerSum (alSet u d ((alGet u d).getD [])) k2 = ledgerSum u k2
    have h := ledgerSum_alSet u d ((alGet u d).getD []) k2
    omega
  | none =>
    show ledgerSum (alSet u d (alSet ((alGet u d).getD []) k 0)) k2 = ledgerSum u k2
    have h2 : ((alGet (alSet ((alGet u d).getD []) k 0) k2).getD 0 : Nat) =
        (alGet ((alGet u d).getD []) k2).getD 0 := by
      by_cases hkk : k2 = k
      · subst hkk
        simp [alGet_alSet_self, hk]
      · rw [alGet_alSet_ne _ _ _ _ hkk]
    have h := ledgerSum_alSet u d (alSet ((alGet u d).getD []) k 0) k2
    omega

theorem ledgerSum_bump_self (u : List (String × List (String × Nat))) (d k : String) :
    ledgerSum (bumpLedger u d k) k = ledgerSum u k + 1 := by
  simp only [bumpLedger]
  have h2 : ((alGet (alSet ((alGet u d).getD []) k
      (((alGet ((alGet u d).getD []) k).getD 0) + 1)) k).getD 0 : Nat) =
      (alGet ((alGet u d).getD []) k).getD 0 + 1 := by
    rw [alGet_alSet_self, Option.getD_some]
  have h := ledgerSum_alSet u d
    (alSet ((alGet u d).getD []) k (((alGet ((alGet u d).getD []) k).getD 0) + 1)) k
  omega

theorem ledgerSum_bump_other (u : List (String × List (String × Nat))) (d k k2 : String)
    (h : k2 ≠ k) : ledgerSum (bumpLedger u d k) k2 = ledgerSum u k2 := by
  simp only [bumpLedger]
  have h2 : ((alGet (alSet ((alGet u d).getD []) k
      (((alGet ((alGet u d).getD []) k).getD 0) + 1)) k2).getD 0 : Nat) =
      (alGet ((alGet u d).getD []) k2).getD 0 := by
    rw [alGet_alSet_ne _ _ _ _ h]
  have hsum := ledgerSum_alSet u d
    (alSet ((alGet u d).getD []) k (((alGet ((alGet u d).getD []) k).getD 0) + 1)) k2
  omega

/-- `validate_api_key` never touches the key store, and at most
ensures zero ledger entries. -/
theorem validate_api_key_state (st : ManagerState) (key today : String) :
    (validate_api_key st key today).2.api_keys = st.api_keys ∧
    ((validate_api_key st key today).2.usage_data = st.usage_data ∨
     (validate_api_key st key today).2.usage_data = ensureLedger st.usage_data today key) := by
  unfold validate_api_key
  cases h : alGet st.api_keys key with
  | none => exact ⟨rfl, Or.inl rfl⟩
  | some kd =>
    by_cases ha : kd.is_active = false
    · simp [ha]
    · simp only [ha, if_false]
      by_cases hl : kd.requests_per_day ≤
          ledgerGet (ensureLedger st.usage_data today key) today key <;>
        simp [hl]

/-- Claim C8: every manager operation preserves the invariant that a
record's `total_requests` equals the sum over all days of that key's
ledger entries (together with the auxiliary no-stray-ledger-entries
invariant), and the invariant holds in every reachable state. -/
theorem manager_totals_invariant :
    (∀ st st2 : ManagerState, TotalsOk st ∧ KnownKeysOnly st → MgrStep st st2 →
      TotalsOk st2 ∧ KnownKeysOnly st2) ∧
    (∀ st : ManagerState, MgrReachable st → TotalsOk st) := by
  have hpres : ∀ st st2 : ManagerState, TotalsOk st ∧ KnownKeysOnly st → MgrStep st st2 →
      TotalsOk st2 ∧ KnownKeysOnly st2 := by
    rintro st st2 ⟨htot, hkno⟩ hstep
    cases hstep with
    | create email plan key now hfresh =>
      constructor
      · intro key2 kd2 hget
        by_cases hk : key2 = key
        · subst hk
          rw [show (create_api_key st email plan key2 now).2.api_keys =
                alSet st.api_keys key2 ((create_api_key st email plan key2 now).1.2)
              from rfl, alGet_alSet_self] at hget
          cases hget
          exact (hkno key2 hfresh).symm
        · rw [show (create_api_key st email plan key now).2.api_keys =
                alSet st.api_keys key ((create_api_key st email plan key now).1.2)
              from rfl, alGet_alSet_ne _ _ _ _ hk] at hget
          exact htot key2 kd2 hget
      · intro key2 hget
        by_cases hk : key2 = key
        · subst hk
          rw [show (create_api_key st email plan key2 now).2.api_keys =
                alSet st.api_keys key2 ((create_api_key st email plan key2 now).1.2)
              from rfl, alGet_alSet_self] at hget
          cases hget
        · rw [show (create_api_key st email plan key now).2.api_keys =
                alSet st.api_keys key ((create_api_key st email plan key now).1.2)
              from rfl, alGet_alSet_ne _ _ _ _ hk] at hget
          exact hkno key2 hget
    | validate key today =>
      obtain ⟨hap, hu⟩ := validate_api_key_state st key today
      constructor
      · intro key2 kd2 hget
        rw [hap] at hget
        cases hu with
        | inl h => rw [h]; exact htot key2 kd2 hget
        | inr h => rw [h, ledgerSum_ensure]; exact htot key2 kd2 hget
      · intro key2 hget
        rw [hap] at hget
        cases hu with
        | inl h => rw [h]; exact hkno key2 hget
        | inr h => rw [h, ledgerSum_ensure]; exact hkno key2 hget
    | record key today now hknown =>
      obtain ⟨kd, hkd⟩ := Option.ne_none_iff_exists'.mp hknown
      have hap := record_usage_api_keys st key today now kd hkd
      have hud := record_usage_usage_data st key today now
      constructor
      · intro key2 kd2 hget
        rw [hap] at hget
        rw [hud]
        by_cases hk : key2 = key
        · subst hk
          rw [alGet_alSet_self] at hget
          cases hget
          rw [ledgerSum_bump_self]
          have := htot key2 kd hkd
          simp only []
          omega
        · rw [alGet_alSet_ne _ _ _ _ hk] at hget
          rw [ledgerSum_bump_other _ _ _ _ hk]
          exact htot key2 kd2 hget
      · intro key2 hget
        rw [hap] at hget
        rw [hud]
        by_cases hk : key2 = key
        · subst hk
          rw [alGet_alSet_self] at hget
          cases hget
        · rw [alGet_alSet_ne _ _ _ _ hk] at hget
          rw [ledgerSum_bump_other _ _ _ _ hk]
          exact hkno key2 hget
    | stats key today => exact ⟨htot, hkno⟩
  refine ⟨hpres, fun st hreach => ?_⟩
  have hinit : TotalsOk initState ∧ KnownKeysOnly initState := by
    constructor
    · intro key kd hget
      simp [initState, alGet] at hget
    · intro key hget
      simp [initState, ledgerSum]
  have : TotalsOk st ∧ KnownKeysOnly st := by
    induction hreach with
    | refl => exact hinit
    | tail hr hstep ih => exact hpres _ _ ih hstep
  exact this.1

/-- Witness for C8: the invariant holds in the concrete reachable
state built by one `create_api_key` followed by one `record_usage`. -/
theorem manager_totals_invariant_witness :
    TotalsOk (record_usage stFree "api_k1" "2024-01-01" "t1").2 :=
  manager_totals_invariant.2 _
    (Relation.ReflTransGen.tail
      (Relation.ReflTransGen.single
        (MgrStep.create initState "u@e.com" "free" "api_k1" "t0" rfl))
      (MgrStep.record stFree "api_k1" "2024-01-01" "t1" (by decide)))

/-! ### Extraction pipeline lemmas -/

theorem strategyYield_four_empty (body ct : String) (scripts : List ScriptTag)
    (h : strategyYield body ct scripts 4 = []) : jsonParse body = none := by
  cases hj : jsonParse body with
  | none => rfl
  | some j => simp [strategyYield, hj] at h

theorem direct_none_of_yield_zero_empty (body ct : String) (scripts : List ScriptTag)
    (h : strategyYield body ct scripts 0 = []) :
    (if strContains ct "application/json" then jsonParse body else none) = none := by
  by_cases hc : strContains ct "application/json"
  · cases hj : jsonParse body with
    | none => simp [hc]
    | some j => simp [strategyYield, hc, hj] at h
  · simp [hc]

/-- Claim C5: for every fetch outcome the extractor returns a
well-formed result (the embedding is a total function), with
`error` present exactly when `success` is false: transport failures
carry the transport message, the all-strategies-empty case carries the
no-JSON message, and every strategy success carries no message. -/
theorem extract_error_iff_failure (scriptsOf : String → List ScriptTag)
    (fetch : String → Except String HttpResponse) (now url : String) :
    ((extract_json_from_url scriptsOf fetch now url).error.isSome = true ↔
      (extract_json_from_url scriptsOf fetch now url).success = false) ∧
    (∀ e, fetch (normalizeUrl url) = Except.error e →
      (extract_json_from_url scriptsOf fetch now url).success = false ∧
      (extract_json_from_url scriptsOf fetch now url).error =
        some ("Failed to fetch the URL: " ++ e)) ∧
    ((extract_json_from_url scriptsOf fetch now url).success = true →
      (extract_json_from_url scriptsOf fetch now url).error = none) ∧
    (∀ resp, fetch (normalizeUrl url) = Except.ok resp →
      (∀ i, strategyYield resp.body (resp.contentTypeHeader.getD "")
        (scriptsOf resp.body) i = []) →
      (extract_json_from_url scriptsOf fetch now url).success = false ∧
      (extract_json_from_url scriptsOf fetch now url).error =
        some "No JSON data found in the provided URL") := by
  refine ⟨?_, ?_, ?_, ?_⟩
  · unfold extract_json_from_url
    cases fetch (normalizeUrl url) with
    | error e => simp
    | ok resp =>
      dsimp only
      split
      · simp
      · split
        · simp
        · split
          · simp
          · split
            · simp
            · split <;> simp
  · intro e he
    unfold extract_json_from_url
    rw [he]
    exact ⟨rfl, rfl⟩
  · unfold extract_json_from_url
    cases fetch (normalizeUrl url) with
    | error e => simp
    | ok resp =>
      dsimp only
      split
      · simp
      · split
        · simp
        · split
          · simp
          · split
            · simp
            · split <;> simp
  · intro resp hok hall
    have hjson : jsonParse resp.body = none :=
      strategyYield_four_empty _ _ _ (hall 4)
    have hscript : extract_json_from_script_tags (scriptsOf resp.body) = [] := hall 1
    have hld : extract_json_ld (scriptsOf resp.body) = [] := hall 2
    have htext : extract_json_from_text resp.body = [] := hall 3
    unfold extract_json_from_url
    rw [hok]
    dsimp only
    rw [direct_none_of_yield_zero_empty _ _ _ (hall 0), hscript, hld, htext, hjson]
    simp

/-- Witness for C5: a transport failure yields `success = false` with
the transport message, and a body with no JSON anywhere yields the
no-JSON message. -/
theorem extract_error_iff_failure_witness :
    ((extract_json_from_url (fun _ => []) (fun _ => Except.error "refused") "t0"
        "example.com").success = false ∧
     (extract_json_from_url (fun _ => []) (fun _ => Except.error "refused") "t0"
        "example.com").error = some "Failed to fetch the URL: refused") ∧
    ((extract_json_from_url (fun _ => [])
        (fun _ => Except.ok ⟨some "text/plain", "hello world", 11⟩) "t0"
        "example.com").success = false ∧
     (extract_json_from_url (fun _ => [])
        (fun _ => Except.ok ⟨some "text/plain", "hello world", 11⟩) "t0"
        "example.com").error = some "No JSON data found in the provided URL") :=
  ⟨(extract_error_iff_failure (fun _ => []) (fun _ => Except.error "refused") "t0"
      "example.com").2.1 "refused" rfl,
   (extract_error_iff_failure (fun _ => [])
      (fun _ => Except.ok ⟨some "text/plain", "hello world", 11⟩) "t0"
      "example.com").2.2.2 ⟨some "text/plain", "hello world", 11⟩ rfl
      (by intro i
          match i with
          | 0 => rfl
          | 1 => rfl
          | 2 => rfl
          | 3 => rfl
          | 4 => rfl
          | n + 5 => rfl)⟩

/-- Claim C3 (amended): for a URL without a scheme, the fetch is
performed on `"https://" ++ url`, while the result's `url` field is
always the raw input URL — the normalisation is never reflected in
`sourceUrl`. -/
theorem extract_normalizes_fetch_url_only (url : String)
    (h : urlHasScheme url = false) :
    (normalizeUrl url = "https://" ++ url) ∧
    (∀ (scriptsOf : String → List ScriptTag)
       (fetch : String → Except String HttpResponse) (now : String),
      (extract_json_from_url scriptsOf fetch now url).url = url) ∧
    (∀ (scriptsOf : String → List ScriptTag)
       (f g : String → Except String HttpResponse) (now : String),
      f (normalizeUrl url) = g (normalizeUrl url) →
      extract_json_from_url scriptsOf f now url =
        extract_json_from_url scriptsOf g now url) := by
  refine ⟨by simp [normalizeUrl, h], ?_, ?_⟩
  · intro scriptsOf fetch now
    unfold extract_json_from_url
    cases fetch (normalizeUrl url) with
    | error e => rfl
    | ok resp =>
      dsimp only
      split
      · rfl
      · split
        · rfl
        · split
          · rfl
          · split
            · rfl
            · split <;> rfl
  · intro scriptsOf f g now hfg
    unfold extract_json_from_url
    rw [hfg]

/-- Witness for C3's amended statement at the concrete schemeless URL
`"example.com"`. -/
theorem extract_normalizes_fetch_url_only_witness :
    normalizeUrl "example.com" = "https://example.com" ∧
    (extract_json_from_url (fun _ => []) (fun _ => Except.error "refused") "t0"
      "example.com").url = "example.com" :=
  ⟨(extract_normalizes_fetch_url_only "example.com" (by decide)).1,
   (extract_normalizes_fetch_url_only "example.com" (by decide)).2.1
     (fun _ => []) (fun _ => Except.error "refused") "t0"⟩

/-- Counterexample for C3 as stated: for the schemeless input
`"example.com"` the returned `url` field is the raw input, not the
scheme-normalized URL — the source fills the result dictionary before
normalising. -/
theorem extract_url_not_normalized_counterexample :
    urlHasScheme "example.com" = false ∧
    normalizeUrl "example.com" = "https://example.com" ∧
    (extract_json_from_url (fun _ => []) (fun _ => Except.error "refused") "t0"
      "example.com").url = "example.com" ∧
    (extract_json_from_url (fun _ => []) (fun _ => Except.error "refused") "t0"
      "example.com").url ≠ "https://example.com" := by
  refine ⟨by decide, by decide, by rfl, by decide⟩

/-- Witness for C10 at the concrete unknown plan name `"gold"`. -/
theorem create_api_key_unknown_plan_verbatim_witness :
    ((create_api_key initState "a@b.com" "gold" "k1" "t0").1.2.plan_type = "gold" ∧
     (create_api_key initState "a@b.com" "gold" "k1" "t0").1.2.requests_per_day = 100 ∧
     (create_api_key initState "a@b.com" "gold" "k1" "t0").1.2.rate_limit = 10) ∧
    ∃ stats,
      get_key_stats (create_api_key initState "a@b.com" "gold" "k1" "t0").2 "k1" "2024-01-01" =
        some stats ∧ stats.plan_type = "gold" ∧ stats.daily_limit = 100 :=
  create_api_key_unknown_plan_verbatim initState "a@b.com" "gold" "k1" "t0" "2024-01-01"
    (by decide) (by decide) (by decide)

/-- Claim C2: when the content-type contains `application/json` and the
body parses, the result is `direct_json` with the single wrapped object
(whatever the scripts contain); and in general the five strategies are
tried in the fixed order direct_json, script_tags, json_ld,
text_patterns, forced_json, the result being the first with a
non-empty yield. -/
theorem extract_strategy_order (scriptsOf : String → List ScriptTag)
    (fetch : String → Except String HttpResponse) (now url : String)
    (resp : HttpResponse) (hok : fetch (normalizeUrl url) = Except.ok resp) :
    (∀ v, strContains (resp.contentTypeHeader.getD "") "application/json" = true →
      jsonParse resp.body = some v →
      (extract_json_from_url scriptsOf fetch now url).extraction_method =
        some "direct_json" ∧
      (extract_json_from_url scriptsOf fetch now url).json_objects =
        [ExtractedObject.direct_json v] ∧
      (extract_json_from_url scriptsOf fetch now url).success = true) ∧
    (∀ i, i < 5 →
      strategyYield resp.body (resp.contentTypeHeader.getD "") (scriptsOf resp.body) i ≠ [] →
      (∀ j, j < i →
        strategyYield resp.body (resp.contentTypeHeader.getD "") (scriptsOf resp.body) j = []) →
      (extract_json_from_url scriptsOf fetch now url).extraction_method =
        some (strategyName i) ∧
      (extract_json_from_url scriptsOf fetch now url).json_objects =
        strategyYield resp.body (resp.contentTypeHeader.getD "") (scriptsOf resp.body) i) := by
  constructor
  · intro v hc hj
    unfold extract_json_from_url
    rw [hok]
    dsimp only
    simp [hc, hj]
  · intro i hi hne hprev
    interval_cases i
    · by_cases hc : strContains (resp.contentTypeHeader.getD "") "application/json" = true
      · cases hj : jsonParse resp.body with
        | none => exact absurd (by simp [strategyYield, hc, hj]) hne
        | some v =>
          unfold extract_json_from_url
          rw [hok]
          dsimp only
          simp only [hc, hj, if_true]
          exact ⟨rfl, by simp [strategyYield, hc, hj]⟩
      · exact absurd (by simp [strategyYield, hc]) hne
    · have hdir := direct_none_of_yield_zero_empty _ _ _ (hprev 0 (by omega))
      have hemp : (extract_json_from_script_tags (scriptsOf resp.body)).isEmpty = false := by
        cases hcase : extract_json_from_script_tags (scriptsOf resp.body) with
        | nil => exact absurd hcase hne
        | cons a l => rfl
      unfold extract_json_from_url
      rw [hok]
      dsimp only
      rw [hdir]
      simp only [hemp]
      exact ⟨rfl, rfl⟩
    · have hdir := direct_none_of_yield_zero_empty _ _ _ (hprev 0 (by omega))
      have hs : extract_json_from_script_tags (scriptsOf resp.body) = [] := hprev 1 (by omega)
      have hemp : (extract_json_ld (scriptsOf resp.body)).isEmpty = false := by
        cases hcase : extract_json_ld (scriptsOf resp.body) with
        | nil => exact absurd hcase hne
        | cons a l => rfl
      unfold extract_json_from_url
      rw [hok]
      dsimp only
      rw [hdir]
      simp only [hs, hemp]
      exact ⟨rfl, rfl⟩
    · have hdir := direct_none_of_yield_zero_empty _ _ _ (hprev 0 (by omega))
      have hs : extract_json_from_script_tags (scriptsOf resp.body) = [] := hprev 1 (by omega)
      have hld : extract_json_ld (scriptsOf resp.body) = [] := hprev 2 (by omega)
      have hemp : (extract_json_from_text resp.body).isEmpty = false := by
        cases hcase : extract_json_from_text resp.body with
        | nil => exact absurd hcase hne
        | cons a l => rfl
      unfold extract_json_from_url
      rw [hok]
      dsimp only
      rw [hdir]
      simp only [hs, hld, hemp]
      exact ⟨rfl, rfl⟩
    · have hdir := direct_none_of_yield_zero_empty _ _ _ (hprev 0 (by omega))
      have hs : extract_json_from_script_tags (scriptsOf resp.body) = [] := hprev 1 (by omega)
      have hld : extract_json_ld (scriptsOf resp.body) = [] := hprev 2 (by omega)
      have ht : extract_json_from_text resp.body = [] := hprev 3 (by omega)
      cases hj : jsonParse resp.body with
      | none => exact absurd (by simp [strategyYield, hj]) hne
      | some v =>
        unfold extract_json_from_url
        rw [hok]
        dsimp only
        rw [hdir]
        simp only [hs, hld, ht, hj]
        exact ⟨rfl, by simp [strategyYield, hj]⟩

/-- Witness for C2: an `application/json` response whose body is the
object a = 1, while a script tag with JSON is also present — the
result is still `direct_json`. -/
theorem extract_strategy_order_witness :
    (extract_json_from_url (fun _ => [⟨some "text/javascript", some "\x7b\"b\":2\x7d"⟩])
       (fun _ => Except.ok ⟨some "application/json", "\x7b\"a\":1\x7d", 7⟩) "t0"
       "example.com").extraction_method = some "direct_json" ∧
    (extract_json_from_url (fun _ => [⟨some "text/javascript", some "\x7b\"b\":2\x7d"⟩])
       (fun _ => Except.ok ⟨some "application/json", "\x7b\"a\":1\x7d", 7⟩) "t0"
       "example.com").json_objects =
      [ExtractedObject.direct_json (Json.obj [("a", Json.num 1)])] :=
  have h := (extract_strategy_order
    (fun _ => [⟨some "text/javascript", some "\x7b\"b\":2\x7d"⟩])
    (fun _ => Except.ok ⟨some "application/json", "\x7b\"a\":1\x7d", 7⟩) "t0"
    "example.com" ⟨some "application/json", "\x7b\"a\":1\x7d", 7⟩ rfl).1
    (Json.obj [("a", Json.num 1)]) (by decide) (by rfl)
  ⟨h.1, h.2.1⟩

/-- Claim C1 (amended): for a response whose only script tag is
`<script type="application/ld+json">` holding the object a = 1 and a
non-`application/json` content-type, extraction returns method
`script_tags` (not `json_ld`: the script-tag strategy runs first and
its second pattern already matches the flat object), with exactly one
object of kind `script_tag`, payload a = 1, tagged with the script's
type attribute `application/ld+json`. -/
theorem extract_ld_script_yields_script_tags (scriptsOf : String → List ScriptTag)
    (fetch : String → Except String HttpResponse) (now url : String)
    (resp : HttpResponse) (hok : fetch (normalizeUrl url) = Except.ok resp)
    (hscripts : scriptsOf resp.body =
      [⟨some "application/ld+json", some "\x7b\"a\":1\x7d"⟩])
    (hct : strContains (resp.contentTypeHeader.getD "") "application/json" = false) :
    (extract_json_from_url scriptsOf fetch now url).extraction_method =
      some "script_tags" ∧
    (extract_json_from_url scriptsOf fetch now url).json_objects =
      [ExtractedObject.script_tag (Json.obj [("a", Json.num 1)]) "application/ld+json"] ∧
    (extract_json_from_url scriptsOf fetch now url).success = true := by
  have hcomp : extract_json_from_script_tags
      [⟨some "application/ld+json", some "\x7b\"a\":1\x7d"⟩] =
      [ExtractedObject.script_tag (Json.obj [("a", Json.num 1)]) "application/ld+json"] := by
    rfl
  unfold extract_json_from_url
  rw [hok]
  dsimp only
  simp only [hct, Bool.false_eq_true, if_false, hscripts, hcomp]
  exact ⟨rfl, rfl, rfl⟩

/-- Witness for C1's amended statement on the concrete HTML page
`c1Body`. -/
theorem extract_ld_script_yields_script_tags_witness :
    (extract_json_from_url c1ScriptsOf c1Fetch "t0" "example.com").extraction_method =
      some "script_tags" ∧
    (extract_json_from_url c1ScriptsOf c1Fetch "t0" "example.com").json_objects =
      [ExtractedObject.script_tag (Json.obj [("a", Json.num 1)]) "application/ld+json"] ∧
    (extract_json_from_url c1ScriptsOf c1Fetch "t0" "example.com").success = true :=
  extract_ld_script_yields_script_tags c1ScriptsOf c1Fetch "t0" "example.com"
    ⟨some "text/html; charset=utf-8", c1Body, c1Body.length⟩ rfl (by rfl) (by decide)

/-- Counterexample for C1 as stated: on the concrete page `c1Body`
(the JSON-LD script holding a = 1, content-type `text/html`), the
extraction method is `script_tags`, not `json_ld` — the script-tag
strategy runs before the JSON-LD strategy and its pattern matcher
already finds the object. -/
theorem extract_ld_script_not_json_ld_counterexample :
    (extract_json_from_url c1ScriptsOf c1Fetch "t0" "example.com").extraction_method =
      some "script_tags" ∧
    (extract_json_from_url c1ScriptsOf c1Fetch "t0" "example.com").extraction_method ≠
      some "json_ld" := by
  have h : (extract_json_from_url c1ScriptsOf c1Fetch "t0" "example.com").extraction_method =
      some "script_tags" := by rfl
  exact ⟨h, by rw [h]; decide⟩

/-- Claim C6: `find_json_objects` evaluates the three patterns
independently over the full text and concatenates all matches in
pattern order then match order without deduplication; on the invalid
JSON input with unquoted keys (a = the nested object b = 1) it
produces exactly one candidate, which fails to parse and so
contributes zero objects, with no exception (the embedding is total). -/
theorem find_json_objects_spec :
    (∀ text, find_json_objects text =
      reFindAll pattern1 text ++ reFindAll pattern2 text ++ reFindAll pattern3 text) ∧
    find_json_objects "\x7ba:\x7bb:1\x7d\x7d" = ["\x7ba:\x7bb:1\x7d\x7d"] ∧
    jsonParse "\x7ba:\x7bb:1\x7d\x7d" = none ∧
    extract_json_from_text "\x7ba:\x7bb:1\x7d\x7d" = [] := by
  refine ⟨fun text => ?_, by rfl, by rfl, by rfl⟩
  simp [find_json_objects, jsonPatterns, List.append_assoc]

/-- Claim C4 (amended): when the presented API key is non-empty and
passes validation and the request body supplies a non-empty `url`,
`record_usage` is invoked exactly once and the response carries the
extraction result whatever its success; a request that passes
validation but lacks a JSON body or `url` is answered 400 without any
usage being recorded. -/
theorem api_extract_records_usage_once (extractor : String → ExtractionResult)
    (st st1 : ManagerState) (today now : String) (req : ExtractRequest)
    (kd : KeyData) (kvs : List (String × String)) (u : String)
    (hne : headerApiKey req ≠ "")
    (hval : validate_api_key st (headerApiKey req) today =
      (ValidateResult.success kd, st1))
    (hbody : req.body = some kvs) (hkvs : kvs ≠ [])
    (hurl : alGet kvs "url" = some u) (hu : u ≠ "") :
    (api_extract_json extractor st today now req).2.2 = 1 ∧
    (api_extract_json extractor st today now req).1 =
      ApiResponse.extraction (extractor u) := by
  have hmem : alGet st.api_keys (headerApiKey req) = some kd := by
    have h1 : (validate_api_key st (headerApiKey req) today).1 =
        ValidateResult.success kd := by rw [hval]
    unfold validate_api_key at h1
    cases hg : alGet st.api_keys (headerApiKey req) with
    | none => rw [hg] at h1; cases h1
    | some kd0 =>
      rw [hg] at h1
      by_cases ha : kd0.is_active = false
      · simp only [ha, if_true] at h1; cases h1
      · simp only [ha, if_false] at h1
        by_cases hl : kd0.requests_per_day ≤
            ledgerGet (ensureLedger st.usage_data today (headerApiKey req)) today
              (headerApiKey req)
        · simp only [hl, if_true] at h1; cases h1
        · simp only [hl, if_false] at h1
          cases h1
          rfl
  have hst1 : st1.api_keys = st.api_keys := by
    have := (validate_api_key_state st (headerApiKey req) today).1
    rw [hval] at this
    exact this
  have hrec : record_usage st1 (headerApiKey req) today now =
      (true, ⟨alSet st1.api_keys (headerApiKey req)
        { kd with total_requests := kd.total_requests + 1, last_used := some now },
        bumpLedger st1.usage_data today (headerApiKey req)⟩) := by
    unfold record_usage
    rw [hst1, hmem]
  have hkvs2 : kvs.isEmpty = false := by
    cases kvs with
    | nil => exact absurd rfl hkvs
    | cons a l => rfl
  unfold api_extract_json
  simp only [hne, if_false, hval, hbody, hkvs2, hurl, hu, hrec]
  exact ⟨rfl, rfl⟩

/-- Witness for C4's amended statement: a valid free-plan key with a
well-formed body records exactly one usage and returns the extraction
result (here a failed extraction — billing is on attempts). -/
theorem api_extract_records_usage_once_witness :
    (api_extract_json demoExtractor stFree "2024-01-01" "t1"
       ⟨some "api_k1", none, some [("url", "example.com")]⟩).2.2 = 1 ∧
    (api_extract_json demoExtractor stFree "2024-01-01" "t1"
       ⟨some "api_k1", none, some [("url", "example.com")]⟩).1 =
      ApiResponse.extraction (demoExtractor "example.com") :=
  api_extract_records_usage_once demoExtractor stFree
    (validate_api_key stFree "api_k1" "2024-01-01").2 "2024-01-01" "t1"
    ⟨some "api_k1", none, some [("url", "example.com")]⟩ kdFree
    [("url", "example.com")] "example.com"
    (by decide) (by rfl) (by rfl) (by decide) (by rfl) (by decide)

/-- Counterexample for C4 as stated: a request whose key passes
validation but whose JSON body is empty is answered 400 with no
`record_usage` invocation at all — the body checks sit between
validation and usage recording. -/
theorem api_extract_validated_without_usage_counterexample :
    (validate_api_key stFree "api_k1" "2024-01-01").1 = ValidateResult.success kdFree ∧
    (api_extract_json demoExtractor stFree "2024-01-01" "t1"
       ⟨some "api_k1", none, some []⟩).2.2 = 0 ∧
    (api_extract_json demoExtractor stFree "2024-01-01" "t1"
       ⟨some "api_k1", none, some []⟩).1 =
      ApiResponse.httpError 400 "JSON data required" := by
  exact ⟨by rfl, by rfl, by rfl⟩

end Uniap
